import Mathlib

/-!
Shallow embedding of the baccarat bot's game-session core (src/main.py).

Conventions used throughout:
* Python dicts keyed by user id are modelled as association lists
  (`List (Nat × _)`) in insertion order; a live session's dicts have
  pairwise-distinct keys, stated as a `Nodup` hypothesis where a proof
  needs it.
* Monetary amounts (ETH) are modelled as exact rationals `ℚ`; the
  source's float literals `0.05`, `0.95`, `1.95` become `5/100`,
  `95/100`, `195/100`.  The source stores `bet_amount` as a string and
  compares it with `"0"`; the model uses the rational value and
  compares with `0`.
* `random.randint` results (dealt cards, the target number) are passed
  in as explicit parameters.
* Side effects are reduced to their data: settlement functions return
  the list of `(user, amount)` withdrawal instructions they issue;
  chat handlers return the stored session state after the handler runs
  together with a reply tag, and the single named 30-second timeout
  job of a chat is a boolean `jobScheduled` field.
-/

/-- Model of `card_value` from src/main.py: Ace → 1, ten and faces → 0, else face value. -/
def card_value (card : Nat) : Nat :=
  if card = 1 then 1
  else if 10 ≤ card then 0
  else card

/-- Model of `hand_total` from src/main.py: sum of card values mod 10. -/
def hand_total (cards : List Nat) : Nat :=
  (cards.map card_value).sum % 10

/-- Result quadruple of `baccarat_third_card`. -/
structure ThirdCardResult where
  playerCards : List Nat
  bankerCards : List Nat
  playerDrew : Bool
  bankerDrew : Bool
deriving DecidableEq, Repr

/-- Model of `baccarat_third_card` from src/main.py.  The two potential `deal_card()`
results are passed in as `nextPlayerCard` and `nextBankerCard`. -/
def baccarat_third_card (player_cards banker_cards : List Nat)
    (nextPlayerCard nextBankerCard : Nat) : ThirdCardResult :=
  let player_total := hand_total player_cards
  let banker_total := hand_total banker_cards
  if 8 ≤ player_total ∨ 8 ≤ banker_total then
    ⟨player_cards, banker_cards, false, false⟩
  else
    let player_draw := decide (player_total ≤ 5)
    let player_cards' :=
      if player_draw then player_cards ++ [nextPlayerCard] else player_cards
    let banker_draw :=
      if player_cards'.length = 3 then
        let player_third := card_value (player_cards'.getD 2 0)
        decide (banker_total ≤ 2 ∨
          (banker_total = 3 ∧ player_third ≠ 8) ∨
          (banker_total = 4 ∧ player_third ∈ [2, 3, 4, 5, 6, 7]) ∨
          (banker_total = 5 ∧ player_third ∈ [4, 5, 6, 7]) ∨
          (banker_total = 6 ∧ player_third ∈ [6, 7]))
      else
        decide (banker_total ≤ 5)
    let banker_cards' :=
      if banker_draw then banker_cards ++ [nextBankerCard] else banker_cards
    ⟨player_cards', banker_cards', player_draw, banker_draw⟩

/-- Model of `determine_winner` from src/main.py (Simple mode outcome). -/
def determine_winner (player_cards banker_cards : List Nat) : String :=
  let player_total := hand_total player_cards
  let banker_total := hand_total banker_cards
  if banker_total < player_total then "Player"
  else if player_total < banker_total then "Banker"
  else "Tie"

/-- Python's `min` over a non-empty list of naturals (first element seeds the fold). -/
def list_min : List Nat → Nat
  | [] => 0
  | x :: xs => xs.foldl min x

/-- Model of `determine_pvp_winner` from src/main.py: per-player totals, then the
minimum-distance winner set, with the all-zero degenerate case.  Returns
`(winners, totals)` where winners carry their totals, as in the source. -/
def determine_pvp_winner (card_choices : List (Nat × Nat)) (target_number : Int) :
    List (Nat × Nat) × List (Nat × Nat) :=
  let totals := card_choices.map (fun p => (p.1, card_value p.2 % 10))
  if totals = [] ∨ ∀ p ∈ totals, p.2 = 0 then
    ([], totals)
  else
    let distances := totals.map (fun p => ((p.2 : Int) - target_number).natAbs)
    let min_distance := list_min distances
    let winners := totals.filter
      (fun p => decide (((p.2 : Int) - target_number).natAbs = min_distance))
    (winners, totals)

/-- Withdrawal instructions issued by `process_pvp_payouts` in src/main.py,
as `(user, amount)` pairs in issue order.  The structure of the source is
kept: the early return on `not winners or bet_amount == "0"`, the per-winner
payout loop, and the `if not winners` refund loop that follows it. -/
def process_pvp_payouts (winners : List (Nat × Nat)) (bet_amount : ℚ)
    (player_bets : List Nat) : List (Nat × ℚ) :=
  if winners = [] ∨ bet_amount = 0 then []
  else
    let total_pool := bet_amount * player_bets.length
    let fee := total_pool * (5 / 100)
    let prize_pool := total_pool - fee
    let payout_per_winner := prize_pool / winners.length
    let winner_payouts := winners.map (fun w => (w.1, payout_per_winner))
    let refunds :=
      if winners = [] then
        player_bets.map (fun u => (u, bet_amount * (95 / 100)))
      else []
    winner_payouts ++ refunds

/-- Simple-mode settlement instructions from `proceed_to_results` in
src/main.py: bettors whose choice equals the outcome, each mapped to the
withdrawal of their stake times the outcome's multiplier.  `player_bets`
entries are `(uid, choice, amount)` as stored in the session's bets dict. -/
def simple_round_payouts (bet_amount : ℚ) (player_bets : List (Nat × String × ℚ))
    (result : String) : List (Nat × ℚ) :=
  if bet_amount = 0 then []
  else
    (player_bets.filter (fun b => decide (b.2.1 = result))).map (fun b =>
      (b.1,
        if b.2.1 = "Banker" then b.2.2 * (195 / 100)
        else if b.2.1 = "Player" then b.2.2 * 2
        else if b.2.1 = "Tie" then b.2.2 * 9
        else 0))

/-- Session status strings used in src/main.py. -/
inductive GameStatus where
  | waiting
  | settingBet
  | betting
  | cardSelection
  | playing
  | finished
deriving DecidableEq, Repr

/-- The session record held in the `games` store (src/main.py), restricted
to the fields the state machine reads and writes.  `playerBets` entries are
`(uid, choice, amount)`; `cardChoices` entries are `(uid, rank)`. -/
structure Game where
  status : GameStatus
  gameMode : String
  testMode : Bool
  betAmount : ℚ
  players : List Nat
  playerBets : List (Nat × String × ℚ)
  cardChoices : List (Nat × Nat)
  targetNumber : Nat
deriving DecidableEq, Repr

/-- A chat's session slot plus its single named 30-second timeout job
(`timeout_{chat_id}` in the job queue). -/
structure System where
  game : Option Game
  jobScheduled : Bool
deriving DecidableEq, Repr

/-- Player capacity from src/main.py: 2 in test mode, else 4 interactive / 8 simple. -/
def max_players (g : Game) : Nat :=
  if g.testMode then 2 else if g.gameMode = "interactive" then 4 else 8

/-- Reply of the `join` button handler. -/
inductive JoinReply where
  | noGame
  | alreadyJoined
  | gameStarted
  | sessionFull
  | walletRequired
  | joined (allJoined : Bool)
deriving DecidableEq, Repr

/-- The `join` branch of the `button` handler in src/main.py.  `hasWallet`
models the `get_wallet` lookup.  On success the player is appended; when
capacity is reached the status moves to betting. -/
def join_game (s : System) (uid : Nat) (hasWallet : Bool) : System × JoinReply :=
  match s.game with
  | none => (s, .noGame)
  | some g =>
    if uid ∈ g.players then (s, .alreadyJoined)
    else if g.status ≠ .waiting then (s, .gameStarted)
    else if max_players g ≤ g.players.length then (s, .sessionFull)
    else if ¬ hasWallet ∧ g.betAmount ≠ 0 then (s, .walletRequired)
    else
      let players' := g.players ++ [uid]
      if players'.length = max_players g then
        (⟨some { g with players := players', status := .betting }, s.jobScheduled⟩,
          .joined true)
      else
        (⟨some { g with players := players' }, s.jobScheduled⟩, .joined false)

/-- Reply of the `bet_` callback branch. -/
inductive BetReply where
  | noGame
  | notBetting
  | alreadyBet
  | placed (allBet : Bool)
deriving DecidableEq, Repr

/-- Python `str.capitalize` restricted to the bet-type vocabulary of the
callback data (`player`, `banker`, `tie`, `none`). -/
def capitalize_choice (betType : String) : String :=
  if betType = "player" then "Player"
  else if betType = "banker" then "Banker"
  else if betType = "tie" then "Tie"
  else if betType = "none" then "None"
  else betType

/-- The `bet_` branch of the `button` handler in src/main.py.  `randTarget`
models `random.randint(1, 9)`.  The handler records the bet after checking
only the phase and a duplicate; when the last bet arrives, interactive mode
draws the target, moves to card selection and schedules the 30-second
timeout job, while simple mode moves to playing (dealing and settlement
follow in `proceed_to_results`, modelled separately). -/
def place_bet (s : System) (uid : Nat) (betType : String) (randTarget : Nat) :
    System × BetReply :=
  match s.game with
  | none => (s, .noGame)
  | some g =>
    if g.status ≠ .betting then (s, .notBetting)
    else if uid ∈ g.playerBets.map (fun b => b.1) then (s, .alreadyBet)
    else
      let choice := capitalize_choice betType
      let bets' := g.playerBets ++ [(uid, choice, g.betAmount)]
      if bets'.length = g.players.length then
        if g.gameMode = "interactive" then
          (⟨some { g with playerBets := bets', status := .cardSelection,
                          targetNumber := randTarget }, true⟩, .placed true)
        else
          (⟨some { g with playerBets := bets', status := .playing },
            s.jobScheduled⟩, .placed true)
      else
        (⟨some { g with playerBets := bets' }, s.jobScheduled⟩, .placed false)

/-- Reply of the `card_select_` callback branch. -/
inductive ChooseReply where
  | noGame
  | phaseOver
  | alreadyChosen
  | invalidCard
  | chosen (allChosen : Bool)
deriving DecidableEq, Repr

/-- The 13-symbol card vocabulary of src/main.py. -/
def valid_cards : List String :=
  ["A", "2", "3", "4", "5", "6", "7", "8", "9", "10", "J", "Q", "K"]

/-- The `card_map` lookup plus `int(card)` fallback of src/main.py. -/
def card_rank (card : String) : Nat :=
  if card = "A" then 1
  else if card = "J" then 11
  else if card = "Q" then 12
  else if card = "K" then 13
  else (card.toNat?).getD 0

/-- The `card_select_` branch of the `button` handler in src/main.py.  A
wrong-phase press deletes the session (and `delete_game` also removes the
timeout job).  A successful choice records the rank and then always removes
the `timeout_{chat_id}` job, before checking whether all players chose;
when they did, `proceed_to_results` follows (modelled separately). -/
def choose_card (s : System) (uid : Nat) (card : String) : System × ChooseReply :=
  match s.game with
  | none => (s, .noGame)
  | some g =>
    if g.status ≠ .cardSelection then (⟨none, false⟩, .phaseOver)
    else if uid ∈ g.cardChoices.map (fun c => c.1) then (s, .alreadyChosen)
    else if card ∉ valid_cards then (s, .invalidCard)
    else
      let choices' := g.cardChoices ++ [(uid, card_rank card)]
      let allChosen := g.players.all (fun p => p ∈ choices'.map (fun c => c.1))
      (⟨some { g with cardChoices := choices' }, false⟩, .chosen allChosen)

/-- Reply of the timeout job body. -/
inductive TimeoutReply where
  | deleted
  | noop
deriving DecidableEq, Repr

/-- Model of `timeout_card_selection` from src/main.py: the job body re-reads the
session and only acts when it still exists in card selection, in which case
it deletes it and notifies the group. -/
def timeout_card_selection (og : Option Game) : Option Game × TimeoutReply :=
  match og with
  | none => (none, .noop)
  | some g =>
    if g.status = .cardSelection then (none, .deleted) else (some g, .noop)

/-- Events of the card-selection phase: a card pick, or the scheduled
timeout job coming due. -/
inductive PvpEvent where
  | choose (uid : Nat) (card : String)
  | fire
deriving DecidableEq, Repr

/-- One event step.  The boolean records whether the timeout body ran and
deleted a session.  A due timeout only runs when its job is still in the
queue (`jobScheduled`); running consumes the job. -/
def step_pvp (s : System) (e : PvpEvent) : System × Bool :=
  match e with
  | .choose uid card => ((choose_card s uid card).1, false)
  | .fire =>
    if s.jobScheduled then
      let r := timeout_card_selection s.game
      (⟨r.1, false⟩, decide (r.2 = .deleted))
    else (s, false)

/-- Run a list of events; the boolean records whether any timeout deletion
happened along the way. -/
def run_pvp (s : System) : List PvpEvent → System × Bool
  | [] => (s, false)
  | e :: es =>
    let r := step_pvp s e
    let rest := run_pvp r.1 es
    (rest.1, r.2 || rest.2)

/-- A concrete betting-phase session used to instantiate theorems. -/
def sampleBetting : Game :=
  { status := .betting, gameMode := "simple", testMode := false,
    betAmount := 1, players := [1, 2], playerBets := [(1, "Banker", 1)],
    cardChoices := [], targetNumber := 0 }

/-- A concrete betting-phase free-play test-mode session with no bets yet. -/
def sampleBettingEmpty : Game :=
  { status := .betting, gameMode := "interactive", testMode := true,
    betAmount := 0, players := [1, 2], playerBets := [], cardChoices := [],
    targetNumber := 0 }

/-- A concrete card-selection session where player 1 already chose. -/
def sampleSelection : Game :=
  { status := .cardSelection, gameMode := "interactive", testMode := true,
    betAmount := 0, players := [1, 2],
    playerBets := [(1, "None", 0), (2, "None", 0)],
    cardChoices := [(1, 13)], targetNumber := 4 }

/-- The same session with no card choices yet. -/
def sampleSelectionFresh : Game :=
  { sampleSelection with cardChoices := [] }

/-- The same session already past card selection. -/
def samplePlaying : Game :=
  { sampleSelection with status := .playing }

/-- Element 2 of a length-2 list with one appended element is that element. -/
lemma getD_append_two (l : List Nat) (x : Nat) (h : l.length = 2) :
    (l ++ [x]).getD 2 0 = x := by
  rcases l with _ | ⟨a, _ | ⟨c, _ | ⟨d, t⟩⟩⟩ <;> simp_all

/-- C3: for two-card hands, a natural (either total ≥ 8) means no draws and
unmodified hands. -/
theorem natural_means_no_draws (p b : List Nat) (p3 b3 : Nat)
    (_hp : p.length = 2) (_hb : b.length = 2)
    (h : 8 ≤ hand_total p ∨ 8 ≤ hand_total b) :
    baccarat_third_card p b p3 b3 = ⟨p, b, false, false⟩ := by
  unfold baccarat_third_card
  rw [if_pos h]

/-- Witness for `natural_means_no_draws` at player hand [4,4] (total 8),
banker hand [2,3] (total 5). -/
theorem natural_means_no_draws_witness :
    [4, 4].length = 2 ∧ [2, 3].length = 2 ∧
      (8 ≤ hand_total [4, 4] ∨ 8 ≤ hand_total [2, 3]) ∧
      baccarat_third_card [4, 4] [2, 3] 9 9 = ⟨[4, 4], [2, 3], false, false⟩ :=
  ⟨by decide, by decide, by decide,
    natural_means_no_draws [4, 4] [2, 3] 9 9 (by decide) (by decide) (by decide)⟩

/-- C4: for non-natural two-card hands, the player draws iff the player
total is at most 5, and the banker draws exactly per the fixed tableau,
which depends on the player's third-card value when the player drew and
on the banker total alone otherwise. -/
theorem non_natural_draw_rule (p b : List Nat) (p3 b3 : Nat)
    (hp : p.length = 2) (_hb : b.length = 2)
    (hpt : hand_total p < 8) (hbt : hand_total b < 8) :
    ((baccarat_third_card p b p3 b3).playerDrew = true ↔ hand_total p ≤ 5) ∧
    (hand_total p ≤ 5 →
      ((baccarat_third_card p b p3 b3).bankerDrew = true ↔
        hand_total b ≤ 2 ∨
        (hand_total b = 3 ∧ card_value p3 ≠ 8) ∨
        (hand_total b = 4 ∧ 2 ≤ card_value p3 ∧ card_value p3 ≤ 7) ∨
        (hand_total b = 5 ∧ 4 ≤ card_value p3 ∧ card_value p3 ≤ 7) ∨
        (hand_total b = 6 ∧ (card_value p3 = 6 ∨ card_value p3 = 7)))) ∧
    (5 < hand_total p →
      ((baccarat_third_card p b p3 b3).bankerDrew = true ↔ hand_total b ≤ 5)) := by
  have hguard : ¬ (8 ≤ hand_total p ∨ 8 ≤ hand_total b) := by omega
  rcases le_or_lt (hand_total p) 5 with hle | hgt
  · have hkey : baccarat_third_card p b p3 b3 =
        ⟨p ++ [p3],
         if decide (hand_total b ≤ 2 ∨
              (hand_total b = 3 ∧ card_value p3 ≠ 8) ∨
              (hand_total b = 4 ∧ card_value p3 ∈ [2, 3, 4, 5, 6, 7]) ∨
              (hand_total b = 5 ∧ card_value p3 ∈ [4, 5, 6, 7]) ∨
              (hand_total b = 6 ∧ card_value p3 ∈ [6, 7]))
           then b ++ [b3] else b,
         true,
         decide (hand_total b ≤ 2 ∨
           (hand_total b = 3 ∧ card_value p3 ≠ 8) ∨
           (hand_total b = 4 ∧ card_value p3 ∈ [2, 3, 4, 5, 6, 7]) ∨
           (hand_total b = 5 ∧ card_value p3 ∈ [4, 5, 6, 7]) ∨
           (hand_total b = 6 ∧ card_value p3 ∈ [6, 7]))⟩ := by
      simp only [baccarat_third_card, if_neg hguard, decide_eq_true hle, if_pos,
        List.length_append, hp, List.length_singleton, getD_append_two p p3 hp]
    refine ⟨?_, fun _ => ?_, fun hcon => absurd hle (by omega)⟩
    · rw [hkey]; simpa using hle
    · rw [hkey]
      simp only [decide_eq_true_eq, List.mem_cons, List.not_mem_nil, or_false]
      omega
  · have hkey : baccarat_third_card p b p3 b3 =
        ⟨p, if decide (hand_total b ≤ 5) then b ++ [b3] else b,
         false, decide (hand_total b ≤ 5)⟩ := by
      have hdr : decide (hand_total p ≤ 5) = false := by
        simp; omega
      simp only [baccarat_third_card, if_neg hguard, hdr, Bool.false_eq_true,
        if_neg, hp]
      simp [hp]
    refine ⟨?_, fun hcon => absurd hcon (by omega), fun _ => ?_⟩
    · rw [hkey]; simp; omega
    · rw [hkey]
      simp only [decide_eq_true_eq]

/-- Witness for `non_natural_draw_rule`: player [2,3] (total 5) draws; banker
[2,2] (total 4) draws because the player's third card 5 has value in 2..7. -/
theorem non_natural_draw_rule_witness :
    hand_total [2, 3] < 8 ∧ hand_total [2, 2] < 8 ∧
    (baccarat_third_card [2, 3] [2, 2] 5 9).playerDrew = true ∧
    (baccarat_third_card [2, 3] [2, 2] 5 9).bankerDrew = true :=
  ⟨by decide, by decide,
    (non_natural_draw_rule [2, 3] [2, 2] 5 9 (by decide) (by decide) (by decide)
      (by decide)).1.mpr (by decide),
    ((non_natural_draw_rule [2, 3] [2, 2] 5 9 (by decide) (by decide) (by decide)
      (by decide)).2.1 (by decide)).mpr (by decide)⟩

/-- A left fold with `min` never exceeds its seed. -/
lemma foldl_min_le_init (xs : List Nat) (a : Nat) : xs.foldl min a ≤ a := by
  induction xs generalizing a with
  | nil => exact le_refl a
  | cons x xs ih => exact le_trans (ih (min a x)) (min_le_left a x)

/-- A left fold with `min` is a lower bound of the folded list. -/
lemma foldl_min_le_mem (xs : List Nat) (a : Nat) : ∀ x ∈ xs, xs.foldl min a ≤ x := by
  induction xs generalizing a with
  | nil => intro x hx; cases hx
  | cons y ys ih =>
    intro x hx
    rcases List.mem_cons.mp hx with rfl | hx
    · exact le_trans (foldl_min_le_init ys (min a x)) (min_le_right a x)
    · exact ih (min a y) x hx

/-- A left fold with `min` is its seed or an element of the folded list. -/
lemma foldl_min_eq_or_mem (xs : List Nat) (a : Nat) :
    xs.foldl min a = a ∨ xs.foldl min a ∈ xs := by
  induction xs generalizing a with
  | nil => exact Or.inl rfl
  | cons x xs ih =>
    rw [List.foldl_cons]
    rcases ih (min a x) with h | h
    · rw [h]
      rcases Nat.le_total a x with hax | hxa
      · exact Or.inl (min_eq_left hax)
      · exact Or.inr (List.mem_cons.mpr (Or.inl (min_eq_right hxa)))
    · exact Or.inr (List.mem_cons_of_mem x h)

/-- The value `list_min l` is a lower bound of `l`. -/
lemma list_min_le (l : List Nat) : ∀ x ∈ l, list_min l ≤ x := by
  intro x hx
  cases l with
  | nil => cases hx
  | cons y ys =>
    rcases List.mem_cons.mp hx with rfl | hx
    · exact foldl_min_le_init ys x
    · exact foldl_min_le_mem ys y x hx

/-- The minimum of a non-empty list is attained. -/
lemma list_min_mem (l : List Nat) (h : l ≠ []) : list_min l ∈ l := by
  cases l with
  | nil => exact absurd rfl h
  | cons y ys =>
    have heq : list_min (y :: ys) = ys.foldl min y := rfl
    rw [heq]
    rcases foldl_min_eq_or_mem ys y with h1 | h1
    · rw [h1]; exact List.mem_cons_self y ys
    · exact List.mem_cons_of_mem y h1

/-- Membership in the minimum-distance filter is exactly membership plus
minimality of the distance to the target. -/
lemma filter_min_mem_iff (T : List (Nat × Nat)) (target : Int) (hTne : T ≠ [])
    (w : Nat × Nat) :
    w ∈ T.filter (fun p => decide (((p.2 : Int) - target).natAbs =
        list_min (T.map (fun p => ((p.2 : Int) - target).natAbs)))) ↔
      w ∈ T ∧ ∀ q ∈ T,
        ((w.2 : Int) - target).natAbs ≤ ((q.2 : Int) - target).natAbs := by
  rw [List.mem_filter, decide_eq_true_eq]
  constructor
  · rintro ⟨hwT, hmin⟩
    refine ⟨hwT, fun q hq => ?_⟩
    rw [hmin]
    exact list_min_le _ _ (List.mem_map.mpr ⟨q, hq, rfl⟩)
  · rintro ⟨hwT, hmin⟩
    refine ⟨hwT, ?_⟩
    have hDne : T.map (fun p => ((p.2 : Int) - target).natAbs) ≠ [] := by
      simpa using hTne
    obtain ⟨q0, hq0T, hq0⟩ := List.mem_map.mp (list_min_mem _ hDne)
    have h1 := hmin q0 hq0T
    have h2 := list_min_le (T.map (fun p => ((p.2 : Int) - target).natAbs))
      (((w.2 : Int) - target).natAbs) (List.mem_map.mpr ⟨w, hwT, rfl⟩)
    omega

/-- C5: on a non-empty choice set, `determine_pvp_winner` reports each
player's total as `card_value` mod 10, an empty winner set when every total
is zero, and otherwise exactly the minimum-distance players as winners. -/
theorem pvp_winner_characterization (card_choices : List (Nat × Nat))
    (target : Int) (hne : card_choices ≠ []) :
    (determine_pvp_winner card_choices target).2 =
      card_choices.map (fun p => (p.1, card_value p.2 % 10)) ∧
    ((∀ p ∈ card_choices.map (fun p => (p.1, card_value p.2 % 10)), p.2 = 0) →
      (determine_pvp_winner card_choices target).1 = []) ∧
    ((∃ p ∈ card_choices.map (fun p => (p.1, card_value p.2 % 10)), p.2 ≠ 0) →
      ∀ w, w ∈ (determine_pvp_winner card_choices target).1 ↔
        w ∈ card_choices.map (fun p => (p.1, card_value p.2 % 10)) ∧
        ∀ q ∈ card_choices.map (fun p => (p.1, card_value p.2 % 10)),
          ((w.2 : Int) - target).natAbs ≤ ((q.2 : Int) - target).natAbs) := by
  have hTne : card_choices.map (fun p => (p.1, card_value p.2 % 10)) ≠ [] := by
    simpa using hne
  by_cases hz : ∀ p ∈ card_choices.map (fun p => (p.1, card_value p.2 % 10)), p.2 = 0
  · have hres : determine_pvp_winner card_choices target =
        ([], card_choices.map (fun p => (p.1, card_value p.2 % 10))) := by
      simp only [determine_pvp_winner, if_pos (Or.inr hz)]
    refine ⟨by rw [hres], fun _ => by rw [hres], fun hex => ?_⟩
    obtain ⟨p, hp, hpne⟩ := hex
    exact absurd (hz p hp) hpne
  · have hcond : ¬(card_choices.map (fun p => (p.1, card_value p.2 % 10)) = [] ∨
        ∀ p ∈ card_choices.map (fun p => (p.1, card_value p.2 % 10)), p.2 = 0) :=
      not_or.mpr ⟨hTne, hz⟩
    have hres : determine_pvp_winner card_choices target =
        ((card_choices.map (fun p => (p.1, card_value p.2 % 10))).filter
          (fun p => decide (((p.2 : Int) - target).natAbs =
            list_min ((card_choices.map (fun p => (p.1, card_value p.2 % 10))).map
              (fun p => ((p.2 : Int) - target).natAbs)))),
         card_choices.map (fun p => (p.1, card_value p.2 % 10))) := by
      simp only [determine_pvp_winner, if_neg hcond]
    refine ⟨by rw [hres], fun hall => absurd hall hz, fun _ w => ?_⟩
    rw [hres]
    exact filter_min_mem_iff _ target hTne w

/-- Witness for `pvp_winner_characterization` at the spec's example:
target 7, player 1 picks 8 (total 8), player 2 picks 5 (total 5);
player 1 alone is the winner. -/
theorem pvp_winner_characterization_witness :
    ([((1 : Nat), (8 : Nat)), (2, 5)] ≠ ([] : List (Nat × Nat))) ∧
    ((1, 8) ∈ (determine_pvp_winner [(1, 8), (2, 5)] 7).1 ∧
      (determine_pvp_winner [(1, 8), (2, 5)] 7).2 = [(1, 8), (2, 5)]) :=
  ⟨by decide,
    ((pvp_winner_characterization [(1, 8), (2, 5)] 7 (by decide)).2.2
        (by decide) (1, 8)).mpr (by decide),
    (pvp_winner_characterization [(1, 8), (2, 5)] 7 (by decide)).1⟩

/-- C1: evaluation at the failing input.  With bettors present, a non-zero
bet and an empty winner set, `process_pvp_payouts` issues no instructions at
all: the guard `not winners or bet_amount == "0"` returns before the
`if not winners` refund loop, which is therefore unreachable. -/
theorem pvp_no_winner_issues_no_refund :
    process_pvp_payouts [] (1 / 4 : ℚ) [1, 2, 3, 4] = [] := by
  decide

/-- C7: with a non-empty winner set and a non-zero bet, every winner is
issued exactly (pool − fee) / numberOfWinners, where pool is the bet amount
times the number of bettors and the fee is 5% of the pool. -/
theorem pvp_settlement_fee_arithmetic (winners : List (Nat × Nat)) (B : ℚ)
    (bets : List Nat) (hw : winners ≠ []) (hB : B ≠ 0) :
    process_pvp_payouts winners B bets =
      winners.map (fun w => (w.1,
        (B * bets.length - (B * bets.length) * (5 / 100)) / winners.length)) := by
  have hcond : ¬(winners = [] ∨ B = 0) := not_or.mpr ⟨hw, hB⟩
  simp only [process_pvp_payouts, if_neg hcond, if_neg hw, List.append_nil]

/-- Witness for `pvp_settlement_fee_arithmetic` at the spec's numbers:
four bettors staking 0.25 each give pool 1.0 and fee 0.05; one winner
receives 0.95, two winners receive 0.475 each. -/
theorem pvp_settlement_fee_arithmetic_witness :
    ([((1 : Nat), (8 : Nat))] ≠ ([] : List (Nat × Nat))) ∧ ((1 / 4 : ℚ) ≠ 0) ∧
    process_pvp_payouts [(1, 8)] (1 / 4) [1, 2, 3, 4] = [(1, 19 / 20)] ∧
    process_pvp_payouts [(1, 8), (2, 6)] (1 / 4) [1, 2, 3, 4] =
      [(1, 19 / 40), (2, 19 / 40)] := by
  refine ⟨by decide, by norm_num, ?_, ?_⟩
  · rw [pvp_settlement_fee_arithmetic [(1, 8)] (1 / 4) [1, 2, 3, 4]
      (by decide) (by norm_num)]
    simp only [List.map_cons, List.map_nil, List.length_cons, List.length_nil,
      List.cons.injEq, Prod.mk.injEq]
    norm_num
  · rw [pvp_settlement_fee_arithmetic [(1, 8), (2, 6)] (1 / 4) [1, 2, 3, 4]
      (by decide) (by norm_num)]
    simp only [List.map_cons, List.map_nil, List.length_cons, List.length_nil,
      List.cons.injEq, Prod.mk.injEq]
    norm_num

/-- In an association list with pairwise-distinct keys, two entries with the
same key coincide. -/
lemma assoc_nodup_eq {β : Type} {l : List (Nat × β)}
    (h : (l.map (fun b => b.1)).Nodup) {x y : Nat × β}
    (hx : x ∈ l) (hy : y ∈ l) (hfst : x.1 = y.1) : x = y := by
  induction l with
  | nil => cases hx
  | cons a t ih =>
    rw [List.map_cons, List.nodup_cons] at h
    rcases List.mem_cons.mp hx with hxa | hx2
    · rcases List.mem_cons.mp hy with hya | hy2
      · rw [hxa, hya]
      · refine absurd ?_ h.1
        rw [← hxa, hfst]
        exact List.mem_map.mpr ⟨y, hy2, rfl⟩
    · rcases List.mem_cons.mp hy with hya | hy2
      · refine absurd ?_ h.1
        rw [← hya, ← hfst]
        exact List.mem_map.mpr ⟨x, hx2, rfl⟩
      · exact ih h.2 hx2 hy2

/-- C6: in Simple-mode settlement with a non-zero bet, a bettor whose choice
equals the round outcome is issued stake × 2 on a Player win, × 1.95 on a
Banker win, × 9 on a Tie win, and a bettor whose choice differs receives
nothing. -/
theorem simple_settlement_multipliers (B : ℚ) (pb : List (Nat × String × ℚ))
    (pc bc : List Nat) (hB : B ≠ 0)
    (hnd : (pb.map (fun b => b.1)).Nodup)
    (u : Nat) (c : String) (a : ℚ) (hm : (u, c, a) ∈ pb) :
    (c = determine_winner pc bc → determine_winner pc bc = "Player" →
      (u, a * 2) ∈ simple_round_payouts B pb (determine_winner pc bc)) ∧
    (c = determine_winner pc bc → determine_winner pc bc = "Banker" →
      (u, a * (195 / 100)) ∈ simple_round_payouts B pb (determine_winner pc bc)) ∧
    (c = determine_winner pc bc → determine_winner pc bc = "Tie" →
      (u, a * 9) ∈ simple_round_payouts B pb (determine_winner pc bc)) ∧
    (c ≠ determine_winner pc bc →
      ∀ q ∈ simple_round_payouts B pb (determine_winner pc bc), q.1 ≠ u) := by
  simp only [simple_round_payouts, if_neg hB]
  refine ⟨?_, ?_, ?_, ?_⟩
  · intro hc hR
    refine List.mem_map.mpr ⟨(u, c, a), List.mem_filter.mpr ⟨hm, by simp [hc]⟩, ?_⟩
    simp [hc, hR]
  · intro hc hR
    refine List.mem_map.mpr ⟨(u, c, a), List.mem_filter.mpr ⟨hm, by simp [hc]⟩, ?_⟩
    simp [hc, hR]
  · intro hc hR
    refine List.mem_map.mpr ⟨(u, c, a), List.mem_filter.mpr ⟨hm, by simp [hc]⟩, ?_⟩
    simp [hc, hR]
  · intro hne q hq hqu
    obtain ⟨b, hb, rfl⟩ := List.mem_map.mp hq
    rw [List.mem_filter, decide_eq_true_eq] at hb
    have heq : b = (u, c, a) := assoc_nodup_eq hnd hb.1 hm hqu
    rw [heq] at hb
    exact hne hb.2

/-- Witness for `simple_settlement_multipliers`: hands [10,10] vs [9,10]
give outcome Banker; the Banker bettor staking 0.5 is issued 0.5 × 1.95 =
0.975 and the Tie bettor is issued nothing. -/
theorem simple_settlement_multipliers_witness :
    ((1 : ℚ) ≠ 0) ∧
    determine_winner [10, 10] [9, 10] = "Banker" ∧
    ((1 : Nat), (39 / 40 : ℚ)) ∈ simple_round_payouts 1
      [(1, "Banker", 1 / 2), (2, "Tie", 1 / 2)]
      (determine_winner [10, 10] [9, 10]) ∧
    (∀ q ∈ simple_round_payouts 1 [(1, "Banker", 1 / 2), (2, "Tie", 1 / 2)]
      (determine_winner [10, 10] [9, 10]), q.1 ≠ 2) := by
  have hR : determine_winner [10, 10] [9, 10] = "Banker" := rfl
  have happ := simple_settlement_multipliers 1
    [(1, "Banker", 1 / 2), (2, "Tie", 1 / 2)] [10, 10] [9, 10]
    (by norm_num) (by decide) 1 "Banker" (1 / 2)
    (List.mem_cons_self _ _)
  have happ2 := simple_settlement_multipliers 1
    [(1, "Banker", 1 / 2), (2, "Tie", 1 / 2)] [10, 10] [9, 10]
    (by norm_num) (by decide) 2 "Tie" (1 / 2)
    (List.mem_cons_of_mem _ (List.mem_cons_self _ _))
  refine ⟨by norm_num, hR, ?_, ?_⟩
  · have h1 := happ.2.1 hR.symm hR
    rw [show ((1 : Nat), (1 / 2 : ℚ) * (195 / 100)) = (1, 39 / 40) from by
      norm_num] at h1
    exact h1
  · exact happ2.2.2.2 (by rw [hR]; decide)

/-- C8: a second bet or card submission by a user who already has an entry
is rejected with an error reply and leaves the stored session (and the
timeout job) completely unchanged. -/
theorem duplicate_submission_rejected (s : System) (g : Game) (uid : Nat)
    (bt card : String) (rt : Nat) (hg : s.game = some g) :
    (g.status = .betting → uid ∈ g.playerBets.map (fun b => b.1) →
      place_bet s uid bt rt = (s, .alreadyBet)) ∧
    (g.status = .cardSelection → uid ∈ g.cardChoices.map (fun c => c.1) →
      choose_card s uid card = (s, .alreadyChosen)) := by
  obtain ⟨og, jb⟩ := s
  simp only at hg
  subst hg
  constructor
  · intro hst hdup
    simp only [place_bet]
    rw [if_neg (by simp [hst]), if_pos hdup]
  · intro hst hdup
    simp only [choose_card]
    rw [if_neg (by simp [hst]), if_pos hdup]

/-- Witness for `duplicate_submission_rejected`: a duplicate bet in a
betting session and a duplicate card pick in a card-selection session are
both rejected with the session unchanged. -/
theorem duplicate_submission_rejected_witness :
    place_bet ⟨some sampleBetting, false⟩ 1 "tie" 3 =
      (⟨some sampleBetting, false⟩, .alreadyBet) ∧
    choose_card ⟨some sampleSelection, true⟩ 1 "A" =
      (⟨some sampleSelection, true⟩, .alreadyChosen) :=
  ⟨(duplicate_submission_rejected ⟨some sampleBetting, false⟩ sampleBetting
      1 "tie" "A" 3 rfl).1 rfl (by simp [sampleBetting]),
   (duplicate_submission_rejected ⟨some sampleSelection, true⟩ sampleSelection
      1 "tie" "A" 3 rfl).2 rfl (by simp [sampleSelection])⟩

/-- C9: the card-selection timeout body deletes the session exactly when a
session still exists with status CardSelection; with no session, or a
session in any other status, it is a no-op and keeps the session. -/
theorem timeout_only_deletes_card_selection (og : Option Game) :
    (∀ g, og = some g → g.status = .cardSelection →
      timeout_card_selection og = (none, .deleted)) ∧
    (∀ g, og = some g → g.status ≠ .cardSelection →
      timeout_card_selection og = (og, .noop)) ∧
    (og = none → timeout_card_selection og = (none, .noop)) := by
  refine ⟨?_, ?_, ?_⟩
  · rintro g rfl hst
    simp [timeout_card_selection, hst]
  · rintro g rfl hst
    simp [timeout_card_selection, hst]
  · rintro rfl
    rfl

/-- Witness for `timeout_only_deletes_card_selection`: the timeout deletes a
card-selection session, and is a no-op on an absent session and on one that
already moved on to playing. -/
theorem timeout_only_deletes_card_selection_witness :
    timeout_card_selection (some sampleSelection) = (none, .deleted) ∧
    timeout_card_selection (some samplePlaying) =
      (some samplePlaying, .noop) ∧
    timeout_card_selection none = (none, .noop) :=
  ⟨(timeout_only_deletes_card_selection (some sampleSelection)).1 _ rfl rfl,
   (timeout_only_deletes_card_selection (some samplePlaying)).2.1 _ rfl
     (by simp [samplePlaying]),
   (timeout_only_deletes_card_selection none).2.2 rfl⟩

/-- A successful card choice always removes the timeout job, whatever its
prior state. -/
lemma choose_card_success_clears_job (s : System) (uid : Nat) (card : String)
    (a : Bool) (h : (choose_card s uid card).2 = .chosen a) :
    (choose_card s uid card).1.jobScheduled = false := by
  obtain ⟨og, jb⟩ := s
  cases og with
  | none => simp [choose_card] at h
  | some g =>
    by_cases h1 : g.status = .cardSelection
    · by_cases h2 : uid ∈ g.cardChoices.map (fun c => c.1)
      · rw [show choose_card ⟨some g, jb⟩ uid card = (⟨some g, jb⟩, .alreadyChosen)
            from by simp [choose_card, h1, h2]] at h
        cases h
      · by_cases h3 : card ∈ valid_cards
        · simp [choose_card, h1, h2, h3]
        · rw [show choose_card ⟨some g, jb⟩ uid card = (⟨some g, jb⟩, .invalidCard)
              from by simp [choose_card, h1, h2, h3]] at h
          cases h
    · simp [choose_card, h1]

/-- The handler `choose_card` never re-arms a cancelled timeout job. -/
lemma choose_card_keeps_no_job (s : System) (uid : Nat) (card : String)
    (h : s.jobScheduled = false) :
    (choose_card s uid card).1.jobScheduled = false := by
  obtain ⟨og, jb⟩ := s
  simp only at h
  subst h
  cases og with
  | none => rfl
  | some g =>
    by_cases h1 : g.status = .cardSelection
    · by_cases h2 : uid ∈ g.cardChoices.map (fun c => c.1)
      · simp [choose_card, h1, h2]
      · by_cases h3 : card ∈ valid_cards
        · simp [choose_card, h1, h2, h3]
        · simp [choose_card, h1, h2, h3]
    · simp [choose_card, h1]

/-- With no job in the queue, no event can run the timeout body or schedule
a job. -/
lemma step_pvp_preserves_no_job (s : System) (e : PvpEvent)
    (h : s.jobScheduled = false) :
    (step_pvp s e).1.jobScheduled = false ∧ (step_pvp s e).2 = false := by
  cases e with
  | choose uid card => exact ⟨choose_card_keeps_no_job s uid card h, rfl⟩
  | fire => simp [step_pvp, h]

/-- With no job in the queue, no event sequence ever runs the timeout body. -/
lemma run_pvp_no_job (s : System) (h : s.jobScheduled = false)
    (es : List PvpEvent) :
    (run_pvp s es).2 = false ∧ (run_pvp s es).1.jobScheduled = false := by
  induction es generalizing s with
  | nil => exact ⟨rfl, h⟩
  | cons e es ih =>
    obtain ⟨h1, h2⟩ := step_pvp_preserves_no_job s e h
    obtain ⟨h3, h4⟩ := ih (step_pvp s e).1 h1
    simp only [run_pvp]
    exact ⟨by rw [h2, h3]; rfl, h4⟩

/-- With no job in the queue, due timeouts change nothing at all. -/
lemma fire_no_job_id (s : System) (h : s.jobScheduled = false) (n : Nat) :
    (run_pvp s (List.replicate n .fire)).1 = s := by
  induction n with
  | zero => rfl
  | succ n ih =>
    have hstep : step_pvp s .fire = (s, false) := by simp [step_pvp, h]
    simp only [List.replicate_succ, run_pvp, hstep]
    exact ih

/-- C10: every successful card choice cancels the pending selection-timeout
job, even when other players have not chosen yet; once the job is gone, no
later event can fire the timeout or re-arm it, and a card-selection session
with the job gone is left untouched by any number of due timeouts. -/
theorem choose_card_always_cancels_timeout (s : System) (uid : Nat)
    (card : String) (a : Bool) :
    ((choose_card s uid card).2 = .chosen a →
      (choose_card s uid card).1.jobScheduled = false) ∧
    (s.jobScheduled = false → ∀ es : List PvpEvent,
      (run_pvp s es).2 = false ∧ (run_pvp s es).1.jobScheduled = false) ∧
    (∀ g, s.game = some g → g.status = .cardSelection →
      s.jobScheduled = false →
      ∀ n : Nat, (run_pvp s (List.replicate n .fire)).1 = s) :=
  ⟨fun h => choose_card_success_clears_job s uid card a h,
   fun h es => run_pvp_no_job s h es,
   fun _ _ _ h n => fire_no_job_id s h n⟩

/-- Witness for `choose_card_always_cancels_timeout`: in a two-player
card-selection session with the timeout armed and nobody chosen, player 1's
choice is accepted with `allChosen = false` and the job is removed; from the
resulting state two due timeouts change nothing. -/
theorem choose_card_always_cancels_timeout_witness :
    (choose_card ⟨some sampleSelectionFresh, true⟩ 1 "K").2 =
      .chosen false ∧
    (choose_card ⟨some sampleSelectionFresh, true⟩ 1 "K").1.jobScheduled =
      false ∧
    (run_pvp ⟨some sampleSelection, false⟩
      (List.replicate 2 .fire)).1 = ⟨some sampleSelection, false⟩ :=
  ⟨by decide,
   (choose_card_always_cancels_timeout ⟨some sampleSelectionFresh, true⟩
      1 "K" false).1 (by decide),
   (choose_card_always_cancels_timeout ⟨some sampleSelection, false⟩
      1 "K" false).2.2 sampleSelection rfl rfl rfl 2⟩

/-- C2 counterexample: in a betting-phase session with players [1, 2], a bet
from user 5 — not a player — is accepted and recorded instead of failing,
and likewise a card choice from user 7 in card selection; so the bets and
card-choice keys are not confined to the player list. -/
theorem unknown_player_accepted_cex :
    place_bet ⟨some sampleBettingEmpty, false⟩ 5 "none" 3 =
      (⟨some { sampleBettingEmpty with playerBets := [(5, "None", 0)] },
        false⟩, .placed false) ∧
    (5 : Nat) ∉ sampleBettingEmpty.players ∧
    choose_card ⟨some sampleSelectionFresh, true⟩ 7 "A" =
      (⟨some { sampleSelectionFresh with cardChoices := [(7, 1)] }, false⟩,
        .chosen false) ∧
    (7 : Nat) ∉ sampleSelectionFresh.players :=
  ⟨by decide, by decide, by decide, by decide⟩

/-- C2 amended: `place_bet` in Betting checks only the phase and a duplicate
bet, never membership in `players`; any non-duplicate user's bet is accepted
and appended to the bets mapping.  Likewise `choose_card` in CardSelection
accepts and records any valid card from any non-duplicate user. -/
theorem bet_and_choice_accept_nonmembers (s : System) (g : Game) (uid : Nat)
    (bt card : String) (rt : Nat) (hg : s.game = some g) :
    (g.status = .betting → uid ∉ g.playerBets.map (fun b => b.1) →
      ∃ allBet : Bool, (place_bet s uid bt rt).2 = .placed allBet ∧
        ∃ g', (place_bet s uid bt rt).1.game = some g' ∧
          g'.playerBets =
            g.playerBets ++ [(uid, capitalize_choice bt, g.betAmount)]) ∧
    (g.status = .cardSelection → uid ∉ g.cardChoices.map (fun c => c.1) →
      card ∈ valid_cards →
      ∃ allChosen : Bool, (choose_card s uid card).2 = .chosen allChosen ∧
        ∃ g', (choose_card s uid card).1.game = some g' ∧
          g'.cardChoices = g.cardChoices ++ [(uid, card_rank card)]) := by
  obtain ⟨og, jb⟩ := s
  simp only at hg
  subst hg
  constructor
  · intro hst hdup
    simp only [place_bet]
    rw [if_neg (by simp [hst]), if_neg hdup]
    split_ifs with hall hmode
    · exact ⟨true, rfl, _, rfl, rfl⟩
    · exact ⟨true, rfl, _, rfl, rfl⟩
    · exact ⟨false, rfl, _, rfl, rfl⟩
  · intro hst hdup hcard
    simp only [choose_card]
    rw [if_neg (by simp [hst]), if_neg hdup, if_neg (by simp [hcard])]
    exact ⟨_, rfl, _, rfl, rfl⟩

/-- Witness for `bet_and_choice_accept_nonmembers` at the concrete
non-member inputs of the counterexample. -/
theorem bet_and_choice_accept_nonmembers_witness :
    (∃ allBet : Bool,
      (place_bet ⟨some sampleBettingEmpty, false⟩ 5 "none" 3).2 =
        .placed allBet ∧
      ∃ g', (place_bet ⟨some sampleBettingEmpty, false⟩ 5 "none" 3).1.game =
          some g' ∧
        g'.playerBets = sampleBettingEmpty.playerBets ++
          [(5, capitalize_choice "none", sampleBettingEmpty.betAmount)]) ∧
    (∃ allChosen : Bool,
      (choose_card ⟨some sampleSelectionFresh, true⟩ 7 "A").2 =
        .chosen allChosen ∧
      ∃ g', (choose_card ⟨some sampleSelectionFresh, true⟩ 7 "A").1.game =
          some g' ∧
        g'.cardChoices = sampleSelectionFresh.cardChoices ++
          [(7, card_rank "A")]) :=
  ⟨(bet_and_choice_accept_nonmembers ⟨some sampleBettingEmpty, false⟩
      sampleBettingEmpty 5 "none" "A" 3 rfl).1 rfl (by decide),
   (bet_and_choice_accept_nonmembers ⟨some sampleSelectionFresh, true⟩
      sampleSelectionFresh 7 "none" "A" 3 rfl).2 rfl (by decide) (by decide)⟩
